import Mathlib

/-!
Shallow embedding of `sdc/tests/tests_perf/generator.py` (IntelLabs/hpat):
the declarative test-case table (`TestCase`, `CallExpression`), the skipna
variant expansion (`skipna_cases`), parameter partitioning
(`gen_params_wo_data`, `gen_usecase_params`), default call-expression
building (`gen_call_expr`), dynamic probe synthesis (`create_func`, which in
Python assembles a `def` text and runs `exec` on it), probe-record building
(`gen_usecase`), test-method building (`gen_test`) and registration
(`generate_test_cases`, which attaches methods with `setattr`).

Python-language behaviour the claims depend on is modelled explicitly:
 - `str.split(sep)` keeps empty fields, so splitting the empty string
   yields one empty token (`pySplit`);
 - slicing accepts negative indices (`pyTake`/`pyDrop`);
 - `exec` of a `def` statement checks syntax only: parameter-list syntax
   (`parseParams`, which accepts a trailing comma and rejects keywords and
   duplicates) and expression syntax (`parseExpr`, a recursive-descent
   parser for the expression fragment the tables use: names, integer and
   string literals, `+`, attribute access, calls).  Name resolution happens
   only when the synthesized function is called (`evalExpr`: locals first,
   then the module globals), exactly as in CPython;
 - calling a synthesized function first binds positional arguments
   (arity mismatch is a call-time TypeError), reads the clock, evaluates
   the body expression, reads the clock again and returns the pair
   (elapsed, result).  The clock is passed in as a stream of rationals.
-/

namespace HpatGen

/-- Runtime values a synthesized probe can manipulate: Python ints, strings,
and opaque module-level objects (such as `time` or `np`), tagged by name. -/
inductive Value where
  | int (n : Int)
  | str (s : String)
  | obj (tag : String)
  deriving Repr, DecidableEq

/-- Expressions of the Python fragment that appears in call-expression
texts: names, integer literals, string literals, `+`, attribute access
and calls. -/
inductive Expr where
  | var (x : String)
  | num (n : Int)
  | strLit (s : String)
  | add (a b : Expr)
  | attr (e : Expr) (field : String)
  | call (f : Expr) (args : List Expr)
  deriving Repr

mutual

/-- Variables occurring in an expression (mutual with lists of arguments). -/
def exprVars : Expr → List String
  | .var x => [x]
  | .num _ => []
  | .strLit _ => []
  | .add a b => exprVars a ++ exprVars b
  | .attr e _ => exprVars e
  | .call f args => exprVars f ++ exprVarsList args

/-- Variables occurring in an argument list. -/
def exprVarsList : List Expr → List String
  | [] => []
  | e :: es => exprVars e ++ exprVarsList es

end

end HpatGen

namespace HpatGen

/-- Tokens of the expression fragment. -/
inductive Tok where
  | ident (s : String)
  | intLit (n : Nat)
  | strTok (s : String)
  | plus
  | dot
  | lpar
  | rpar
  | comma
  deriving Repr, DecidableEq

/-- First character of a Python identifier. -/
def isIdentStart (c : Char) : Bool := c.isAlpha || c = '_'

/-- Non-first character of a Python identifier. -/
def isIdentChar (c : Char) : Bool := c.isAlphanum || c = '_'

/-- The single-quote character (written via its code point). -/
def squote : Char := Char.ofNat 39

/-- Numeric value of a digit string. -/
def natOfDigits (cs : List Char) : Nat :=
  cs.foldl (fun n c => 10 * n + (c.toNat - 48)) 0

/-- Tokenizer for the expression fragment; `Option.none` on a character
outside the fragment or an unterminated string literal.  Fuel-indexed; each
step consumes at least one character, so `cs.length + 1` fuel suffices. -/
def tokenize : Nat → List Char → Option (List Tok)
  | 0, _ => Option.none
  | _ + 1, [] => some []
  | fuel + 1, c :: cs =>
    if c = ' ' then tokenize fuel cs
    else if c = '+' then (tokenize fuel cs).map (Tok.plus :: ·)
    else if c = '.' then (tokenize fuel cs).map (Tok.dot :: ·)
    else if c = '(' then (tokenize fuel cs).map (Tok.lpar :: ·)
    else if c = ')' then (tokenize fuel cs).map (Tok.rpar :: ·)
    else if c = ',' then (tokenize fuel cs).map (Tok.comma :: ·)
    else if c = squote then
      match cs.span (· ≠ squote) with
      | (body, rest) =>
        match rest with
        | q :: rest2 =>
          if q = squote then (tokenize fuel rest2).map (Tok.strTok ⟨body⟩ :: ·)
          else Option.none
        | [] => Option.none
    else if isIdentStart c then
      match cs.span isIdentChar with
      | (body, rest) => (tokenize fuel rest).map (Tok.ident ⟨c :: body⟩ :: ·)
    else if c.isDigit then
      match cs.span Char.isDigit with
      | (body, rest) => (tokenize fuel rest).map (Tok.intLit (natOfDigits (c :: body)) :: ·)
    else Option.none

mutual

/-- Expression: a `+`-chain of postfix expressions (left associative). -/
def parseE : Nat → List Tok → Option (Expr × List Tok)
  | 0, _ => Option.none
  | f + 1, toks => do
    let (a, rest) ← parsePost f toks
    parseAddRest f a rest

/-- Remaining `+ operand` repetitions. -/
def parseAddRest : Nat → Expr → List Tok → Option (Expr × List Tok)
  | 0, _, _ => Option.none
  | f + 1, acc, Tok.plus :: rest => do
    let (b, rest2) ← parsePost f rest
    parseAddRest f (.add acc b) rest2
  | _ + 1, acc, toks => some (acc, toks)

/-- Postfix expression: an atom followed by trailers. -/
def parsePost : Nat → List Tok → Option (Expr × List Tok)
  | 0, _ => Option.none
  | f + 1, toks => do
    let (a, rest) ← parseAtom f toks
    parseTrailers f a rest

/-- Atom: name, literal, or parenthesized expression. -/
def parseAtom : Nat → List Tok → Option (Expr × List Tok)
  | 0, _ => Option.none
  | _ + 1, Tok.ident s :: rest => some (.var s, rest)
  | _ + 1, Tok.intLit n :: rest => some (.num (n : Int), rest)
  | _ + 1, Tok.strTok s :: rest => some (.strLit s, rest)
  | f + 1, Tok.lpar :: rest => do
    let (e, rest2) ← parseE f rest
    match rest2 with
    | Tok.rpar :: rest3 => some (e, rest3)
    | _ => Option.none
  | _ + 1, _ => Option.none

/-- Trailers: `.name` attribute access or `(args)` calls. -/
def parseTrailers : Nat → Expr → List Tok → Option (Expr × List Tok)
  | 0, _, _ => Option.none
  | f + 1, e, Tok.dot :: Tok.ident s :: rest => parseTrailers f (.attr e s) rest
  | f + 1, e, Tok.lpar :: Tok.rpar :: rest => parseTrailers f (.call e []) rest
  | f + 1, e, Tok.lpar :: rest => do
    let (a, rest2) ← parseE f rest
    let (args, rest3) ← parseArgsRest f [a] rest2
    parseTrailers f (.call e args) rest3
  | _ + 1, e, toks => some (e, toks)

/-- Remaining call arguments after the first, up to the closing paren. -/
def parseArgsRest : Nat → List Expr → List Tok → Option (List Expr × List Tok)
  | 0, _, _ => Option.none
  | f + 1, acc, Tok.comma :: rest => do
    let (a, rest2) ← parseE f rest
    parseArgsRest f (acc ++ [a]) rest2
  | _ + 1, acc, Tok.rpar :: rest => some (acc, rest)
  | _, _, _ => Option.none

end

/-- Parse a complete call-expression text; `Option.none` models the
SyntaxError that `exec` raises on malformed expression text. -/
def parseExpr (s : String) : Option Expr := do
  let toks ← tokenize (s.toList.length + 1) s.toList
  let (e, rest) ← parseE (3 * toks.length + 3) toks
  match rest with
  | [] => some e
  | _ => Option.none

/-- Does the character list start with the given separator? -/
def listStartsWith : List Char → List Char → Bool
  | [], _ => true
  | _ :: _, [] => false
  | s :: ss, c :: cs => s = c && listStartsWith ss cs

/-- Worker for `pySplit`: accumulate the current field (reversed) and cut
at each occurrence of the separator.  Fuel-indexed; every step consumes at
least one character, so `cs.length + 1` fuel suffices. -/
def pySplitGo (sep : List Char) : Nat → List Char → List Char → List String
  | 0, acc, _ => [String.mk acc.reverse]
  | _ + 1, acc, [] => [String.mk acc.reverse]
  | fuel + 1, acc, c :: cs =>
    if listStartsWith sep (c :: cs) then
      String.mk acc.reverse :: pySplitGo sep fuel [] (cs.drop (sep.length - 1))
    else
      pySplitGo sep fuel (c :: acc) cs

/-- Python `s.split(sep)` for a non-empty separator: splits on every
occurrence of the exact separator and keeps empty fields, so
`''.split(sep) == ['']`. -/
def pySplit (s sep : String) : List String :=
  pySplitGo sep.toList (s.toList.length + 1) [] s.toList

/-- Python `s.strip()`: drop leading and trailing whitespace. -/
def pyStrip (s : String) : String :=
  String.mk (((s.toList.dropWhile Char.isWhitespace).reverse.dropWhile Char.isWhitespace).reverse)

/-- Python keywords: reserved words that cannot be parameter names
(`def func(None):` is a SyntaxError). -/
def pyKeywords : List String :=
  ["False", "None", "True", "and", "as", "assert", "async", "await",
   "break", "class", "continue", "def", "del", "elif", "else", "except",
   "finally", "for", "from", "global", "if", "import", "in", "is",
   "lambda", "nonlocal", "not", "or", "pass", "raise", "return", "try",
   "while", "with", "yield"]

/-- Acceptable parameter name: an identifier that is not a keyword. -/
def isParamName (s : String) : Bool :=
  match s.toList with
  | [] => false
  | c :: cs => isIdentStart c && cs.all isIdentChar && !(pyKeywords.contains s)

/-- Drop one trailing empty field (Python permits a trailing comma in a
parameter list). -/
def dropTrailingEmpty (l : List String) : List String :=
  match l.getLast? with
  | some "" => l.dropLast
  | _ => l

/-- No duplicated names (`def f(a, a):` is a SyntaxError). -/
def listNodupStr : List String → Bool
  | [] => true
  | s :: rest => (!rest.contains s) && listNodupStr rest

/-- Parse the parameter-list text spliced into `def func(...):`;
`Option.none` models the SyntaxError that `exec` raises on a malformed
parameter list.  Fields are comma-separated, whitespace-trimmed; one
trailing empty field (trailing comma) is allowed; each field must be a
non-keyword identifier and names must be distinct. -/
def parseParams (s : String) : Option (List String) :=
  let toks := dropTrailingEmpty ((pySplit s ",").map pyStrip)
  if toks.all isParamName && listNodupStr toks then some toks else Option.none

/-- Call-time errors of a synthesized probe (NameError on an unresolved
name, TypeError on an unsupported operation or an arity mismatch). -/
inductive RunError where
  | nameError (x : String)
  | typeError
  deriving Repr, DecidableEq

/-- First-match association-list lookup: the name-resolution order of the
synthesized function is locals (bound parameters) before module globals. -/
def lookupEnv (env : List (String × Value)) (x : String) : Option Value :=
  match env with
  | [] => Option.none
  | (y, v) :: rest => if y = x then some v else lookupEnv rest x

/-- Python `+` on the modelled values: int+int, str+str; otherwise a
call-time TypeError. -/
def addVal : Value → Value → Except RunError Value
  | .int m, .int n => .ok (.int (m + n))
  | .str s, .str t => .ok (.str (s ++ t))
  | _, _ => .error .typeError

/-- Attribute access: opaque module objects expose opaque attributes;
attribute access on a modelled int or str is a call-time error. -/
def attrVal : Value → String → Except RunError Value
  | .obj t, f => .ok (.obj (t ++ "." ++ f))
  | _, _ => .error .typeError

/-- Application: calling an opaque object yields an opaque result; the
modelled ints and strs are not callable. -/
def applyVal : Value → List Value → Except RunError Value
  | .obj t, _ => .ok (.obj (t ++ "()"))
  | _, _ => .error .typeError

mutual

/-- Evaluate an expression against an environment, left to right, errors
propagating — names are resolved here, at call time, never earlier. -/
def evalExpr (env : List (String × Value)) : Expr → Except RunError Value
  | .var x =>
    match lookupEnv env x with
    | some v => .ok v
    | Option.none => .error (.nameError x)
  | .num n => .ok (.int n)
  | .strLit s => .ok (.str s)
  | .add a b =>
    match evalExpr env a with
    | .error e => .error e
    | .ok va =>
      match evalExpr env b with
      | .error e => .error e
      | .ok vb => addVal va vb
  | .attr e f =>
    match evalExpr env e with
    | .error err => .error err
    | .ok v => attrVal v f
  | .call f args =>
    match evalExpr env f with
    | .error e => .error e
    | .ok fv =>
      match evalArgs env args with
      | .error e => .error e
      | .ok avs => applyVal fv avs

/-- Evaluate call arguments left to right. -/
def evalArgs (env : List (String × Value)) : List Expr → Except RunError (List Value)
  | [] => .ok []
  | e :: es =>
    match evalExpr env e with
    | .error err => .error err
    | .ok v =>
      match evalArgs env es with
      | .error err => .error err
      | .ok vs => .ok (v :: vs)

end

mutual

/-- Does the expression reference a name that the environment does not
bind?  Such a reference raises a NameError when the probe runs. -/
def hasUnbound (env : List (String × Value)) : Expr → Bool
  | .var x => (lookupEnv env x).isNone
  | .num _ => false
  | .strLit _ => false
  | .add a b => hasUnbound env a || hasUnbound env b
  | .attr e _ => hasUnbound env e
  | .call f args => hasUnbound env f || hasUnboundList env args

/-- `hasUnbound` over an argument list. -/
def hasUnboundList (env : List (String × Value)) : List Expr → Bool
  | [] => false
  | e :: es => hasUnbound env e || hasUnboundList env es

end

/-- Names the generator module's `globals()` binds and that an
`exec`-compiled probe can therefore reference at call time (the module
imports `time` and `numpy as np`); modelled as opaque objects. -/
def moduleGlobals : List (String × Value) :=
  [("time", .obj "time"), ("np", .obj "np")]

/-- A synthesized probe: the parsed parameter signature and the parsed
body expression of the `exec`-compiled function. -/
structure Probe where
  params : List String
  body : Expr
  deriving Repr

/-- Construction-time failure of `create_func`: the SyntaxError raised by
`exec` on malformed parameter-list or expression text. -/
inductive SynthError where
  | compileError
  deriving Repr, DecidableEq

/-- Embedding of `create_func(usecase_params, call_expr)`: assemble the
function text and `exec` it.  `exec` compiles the `def` statement —
checking only that the spliced parameter list and expression are
syntactically well formed — and returns the function.  Free names in the
body are NOT checked here; CPython resolves them at call time. -/
def create_func (usecase_params : String) (call_expr : String) : Except SynthError Probe :=
  match parseParams usecase_params, parseExpr call_expr with
  | some ps, some e => .ok { params := ps, body := e }
  | _, _ => .error .compileError

/-- Invoke a synthesized probe, embedding the generated body
`start_time = time.time(); res = <call_expr>; finish_time = time.time();
return finish_time - start_time, res`.  The two `time.time()` readings are
supplied by the clock stream `ts` (readings 0 and 1); positional-argument
binding fails with a TypeError when the arity does not match. -/
def Probe.call (p : Probe) (ts : ℕ → ℚ) (args : List Value) :
    Except RunError (ℚ × Value) :=
  if args.length = p.params.length then
    match evalExpr (p.params.zip args ++ moduleGlobals) p.body with
    | .error e => .error e
    | .ok res => .ok (ts 1 - ts 0, res)
  else .error .typeError

/-- Embedding of the `CallExpression` named tuple: `code` (expression
text), `type_` (execution-channel tag such as Python/Numba/SDC), `jitted`
(whether the call is jitted). -/
structure CallExpression where
  code : String
  type_ : String
  jitted : Bool
  deriving Repr, DecidableEq

/-- The `call_expr` field of a `TestCase` is dynamically typed in Python:
`None` (written `absent` here), a single expression string, or a list of
`CallExpression`. -/
inductive CallExprField where
  | absent
  | single (code : String)
  | exprs (l : List CallExpression)
  deriving Repr

/-- Embedding of the `TestCase` named tuple, with the source's defaults
(`params=''`, `call_expr=None`, `usecase_params=None`, `input_data=None`,
`data_num=1`, `data_gens=None`, `skip=False`, `check_skipna=False`).
`size`, `input_data` and `data_gens` are only carried through to the
harness, so their element types are opaque stand-ins (sizes as naturals,
input data as ints, data generators as name tags). -/
structure TestCase where
  name : String
  size : List Nat
  params : String := ""
  call_expr : CallExprField := .absent
  usecase_params : Option String := Option.none
  input_data : Option (List Int) := Option.none
  data_num : Int := 1
  data_gens : Option (List String) := Option.none
  skip : Bool := false
  check_skipna : Bool := false
  deriving Repr

/-- Python `str.join`: interleave the separator between the fields. -/
def joinWith (sep : String) : List String → String
  | [] => ""
  | [a] => a
  | a :: rest => a ++ sep ++ joinWith sep rest

/-- Python slice upper/lower bound: a negative index counts from the end
(clamped at 0), a non-negative one from the start. -/
def pySliceIdx (len : Nat) (i : Int) : Nat :=
  if 0 ≤ i then i.toNat else len - (-i).toNat

/-- Python `l[:i]`. -/
def pyTake (l : List String) (i : Int) : List String :=
  l.take (pySliceIdx l.length i)

/-- Python `l[i:]`. -/
def pyDrop (l : List String) (i : Int) : List String :=
  l.drop (pySliceIdx l.length i)

/-- Python `f"{x}"` on an optional string: `None` formats as `"None"`. -/
def pyFormatOptStr : Option String → String
  | Option.none => "None"
  | some s => s

/-- One derived copy produced by `skipna_cases`: append
`skipna=True`/`skipna=False` to `params` (comma-separated when `params`
is non-empty); `case._replace(params=...)` copies every other field. -/
def skipnaVariant (case : TestCase) (skipna : Bool) : TestCase :=
  let params := case.params
  let params := if params ≠ "" then params ++ ", " else params
  let params := params ++ ("skipna=" ++ (if skipna then "True" else "False"))
  { case with params := params }

/-- Embedding of the `skipna_cases` generator: a case with
`check_skipna=True` is replaced by its `skipna=True` then `skipna=False`
variants, in that order and in place; other cases pass through. -/
def skipna_cases : List TestCase → List TestCase
  | [] => []
  | case :: rest =>
    (if case.check_skipna then [skipnaVariant case true, skipnaVariant case false]
     else [case]) ++ skipna_cases rest

/-- The number of extra generated data parameters:
`len(data_gens)` when `data_gens` is given, else `data_num - 1`. -/
def extraDataNum (tc : TestCase) : Int :=
  match tc.data_gens with
  | Option.none => tc.data_num - 1
  | some gens => (gens.length : Int)

/-- Embedding of `gen_params_wo_data`: the method parameters after the
leading extra-data ones — `', '.join(params.split(', ')[extra_data_num:])`. -/
def gen_params_wo_data (tc : TestCase) : String :=
  joinWith ", " (pyDrop (pySplit tc.params ", ") (extraDataNum tc))

/-- Embedding of `gen_usecase_params`: `'data'` followed by the leading
extra-data parameters — `', '.join(['data'] + params.split(', ')[:extra_data_num])`. -/
def gen_usecase_params (tc : TestCase) : String :=
  joinWith ", " ("data" :: pyTake (pySplit tc.params ", ") (extraDataNum tc))

/-- Embedding of `gen_call_expr`:
`'.'.join(['data'] + ([prefix] if prefix else []) + ['{}({})'.format(name, params)])`. -/
def gen_call_expr (tc : TestCase) (pfx : String) : String :=
  let prefix_as_list := if pfx ≠ "" then [pfx] else []
  joinWith "." (["data"] ++ prefix_as_list ++ [tc.name ++ "(" ++ tc.params ++ ")"])

/-- One probe record of the multi-channel result of `gen_usecase`:
`{'func': ..., 'type_': ..., 'jitted': ...}`. -/
structure ProbeRecord where
  func : Probe
  type_ : String
  jitted : Bool
  deriving Repr

/-- The dynamically-typed result of `gen_usecase`: a bare callable (when
`call_expr` was absent or a single string) or a list of probe records
(when it was a list of `CallExpression`). -/
inductive Usecase where
  | single (f : Probe)
  | records (rs : List ProbeRecord)
  deriving Repr

/-- The probes contained in a `gen_usecase` result. -/
def probesOf : Usecase → List Probe
  | .single f => [f]
  | .records rs => rs.map (·.func)

/-- Is the `gen_usecase` result a list of probe records? -/
def isRecordSeq : Except SynthError Usecase → Bool
  | .ok (.records _) => true
  | _ => false

/-- The loop of `gen_usecase` over a `CallExpression` list: one record per
entry, in input order, all built with the same signature text; an
exception from `create_func` propagates. -/
def buildRecords (sig : String) : List CallExpression → Except SynthError (List ProbeRecord)
  | [] => .ok []
  | ce :: rest =>
    match create_func sig ce.code with
    | .error e => .error e
    | .ok f =>
      match buildRecords sig rest with
      | .error e => .error e
      | .ok rs => .ok ({ func := f, type_ := ce.type_, jitted := ce.jitted } :: rs)

/-- Embedding of `gen_usecase`: when `call_expr` is `None`, default
`usecase_params` (only then) via `gen_usecase_params` and build the default
expression via `gen_call_expr`; when `call_expr` is a list, build one
record per entry, passing `usecase_params` through Python string
formatting (so `None` becomes the literal text `"None"`); otherwise build
a single bare callable the same way.  Errors from `create_func`
propagate (the Python code lets the exception escape). -/
def gen_usecase (tc : TestCase) (pfx : String) : Except SynthError Usecase :=
  match tc.call_expr with
  | .absent =>
    match create_func ((tc.usecase_params).getD (gen_usecase_params tc))
        (gen_call_expr tc pfx) with
    | .error e => .error e
    | .ok f => .ok (.single f)
  | .single ce =>
    match create_func (pyFormatOptStr tc.usecase_params) ce with
    | .error e => .error e
    | .ok f => .ok (.single f)
  | .exprs l =>
    match buildRecords (pyFormatOptStr tc.usecase_params) l with
    | .error e => .error e
    | .ok rs => .ok (.records rs)

/-- The arguments a generated test method passes to the harness entry
point `self._test_case(usecase, name=..., total_data_length=...,
data_num=..., data_gens=..., input_data=...)`. -/
structure HarnessCall where
  usecase : Usecase
  name : String
  total_data_length : List Nat
  data_num : Int
  data_gens : Option (List String)
  input_data : Option (List Int)
  deriving Repr

/-- Denotation of a generated test method: invoking it either reports a
skipped outcome (performing no harness call, hence never invoking the
probe), or performs exactly the one recorded harness call. -/
inductive TestMethod where
  | skipped
  | run (call : HarnessCall)
  deriving Repr

/-- Modelled from the spec: `skip_numba_jit` is imported from
`sdc.tests.test_utils`, which is not under src/.  Per the spec, it wraps a
test method so that invocation reports a skipped outcome without invoking
the wrapped body — hence never the probe or the harness entry point. -/
def skip_numba_jit (_f : TestMethod) : TestMethod := .skipped

/-- Embedding of `gen_test`: synthesize the usecase, build the display
name (`name(params)` when `params` is non-empty), close over the harness
arguments, and wrap with `skip_numba_jit` when `skip` is set. -/
def gen_test (tc : TestCase) (pfx : String) : Except SynthError TestMethod :=
  match gen_usecase tc pfx with
  | .error e => .error e
  | .ok usecase =>
    let test_name := tc.name ++ (if tc.params ≠ "" then "(" ++ tc.params ++ ")" else "")
    let func : TestMethod := .run
      { usecase := usecase, name := test_name, total_data_length := tc.size,
        data_num := tc.data_num, data_gens := tc.data_gens, input_data := tc.input_data }
    .ok (if tc.skip then skip_numba_jit func else func)

/-- Modelled from the spec: `to_varname` is imported from
`sdc.io.csv_ext`, which is not under src/.  Per the spec's NameSynthesizer
description, it maps every character outside a safe identifier alphabet
(letters, digits, underscore) to the separator underscore. -/
def to_varname (s : String) : String :=
  String.mk (s.toList.map (fun c => if c.isAlphanum || c = '_' then c else '_'))

/-- Embedding of `to_varname_without_excess_underscores`:
`'_'.join(i for i in to_varname(string).split('_') if i)`. -/
def to_varname_without_excess_underscores (s : String) : String :=
  joinWith "_" ((pySplit (to_varname s) "_").filter (· ≠ ""))

/-- The synthesized identifier of one test case:
`to_varname_without_excess_underscores('_'.join(['test', typ, prefix, name,
gen_params_wo_data(test_case)]))`. -/
def gen_test_name (tc : TestCase) (typ pfx : String) : String :=
  to_varname_without_excess_underscores
    (joinWith "_" ["test", typ, pfx, tc.name, gen_params_wo_data tc])

/-- A test class, as far as registration observes it: the attached test
methods by identifier. -/
abbrev TestClass := List (String × TestMethod)

/-- Python `setattr(class_add, test_name, func)`: replace the attribute in
place when the name is already bound, else append it — silently either
way. -/
def pySetattr (cls : TestClass) (name : String) (m : TestMethod) : TestClass :=
  if cls.any (·.1 = name) then
    cls.map (fun p => if p.1 = name then (name, m) else p)
  else cls ++ [(name, m)]

/-- The registration loop of `generate_test_cases` over the expanded
cases: build each method and attach it with `setattr`. -/
def registerLoop (typ pfx : String) : List TestCase → TestClass → Except SynthError TestClass
  | [], cls => .ok cls
  | tc :: rest, cls =>
    match gen_test tc pfx with
    | .error e => .error e
    | .ok m => registerLoop typ pfx rest (pySetattr cls (gen_test_name tc typ pfx) m)

/-- Embedding of `generate_test_cases(cases, class_add, typ, prefix='')`. -/
def generate_test_cases (cases : List TestCase) (class_add : TestClass)
    (typ : String) (pfx : String := "") : Except SynthError TestClass :=
  registerLoop typ pfx (skipna_cases cases) class_add

/-- Spec-side definition of the parameter-partition width, following the
spec's words: `len(data_gens)` if `data_gens` is given, else
`max(data_num − 1, 0)`; to be compared with the code's `extraDataNum`. -/
def specWidth (tc : TestCase) : Int :=
  match tc.data_gens with
  | some gens => (gens.length : Int)
  | Option.none => max (tc.data_num - 1) 0

/-- A minimal default-channel descriptor (all defaults). -/
def tcSum : TestCase := { name := "sum", size := [10] }

/-- The probe `create_func("data", "data.sum()")` yields. -/
def probeSum : Probe :=
  { params := ["data"], body := .call (.attr (.var "data") "sum") [] }

/-- A descriptor with an explicit single call-expression string and no
explicit `usecase_params`. -/
def tcC7 : TestCase :=
  { name := "sum", size := [10], call_expr := .single "data.sum()" }

/-- A descriptor with empty `params`, no `usecase_params`, no `data_gens`
and `data_num = 2`. -/
def tcC10 : TestCase := { name := "sum", size := [10], data_num := 2 }

/-- A descriptor with `skip = True`. -/
def tcSkip : TestCase := { name := "sum", size := [10], skip := true }

/-- A three-channel descriptor with distinct declared categories. -/
def tcMulti : TestCase :=
  { name := "sum", size := [10], usecase_params := some "data",
    call_expr := .exprs
      [{ code := "data.sum()", type_ := "Python", jitted := false },
       { code := "data.sum()", type_ := "Numba", jitted := true },
       { code := "data.sum()", type_ := "SDC", jitted := true }] }

/-- The probe `create_func("data, other", "data + other")` yields. -/
def probeAdd : Probe :=
  { params := ["data", "other"], body := .add (.var "data") (.var "other") }

/-- The probe synthesized from signature text `"data"` and expression text
`"data + missing_name"` — the expression references a name absent from the
signature (and from the module globals). -/
def probeMissing : Probe :=
  { params := ["data"], body := .add (.var "data") (.var "missing_name") }

/-- Partition example: `params="x, y, z"`, `data_num=3`. -/
def tcXYZ3 : TestCase := { name := "m", size := [], params := "x, y, z", data_num := 3 }

/-- Partition example: `params="x, y, z"`, `data_num=1`. -/
def tcXYZ1 : TestCase := { name := "m", size := [], params := "x, y, z", data_num := 1 }

/-- Partition example: `data_gens` of length 2 overriding `data_num=5`. -/
def tcXYZg : TestCase :=
  { name := "m", size := [], params := "x, y, z", data_num := 5,
    data_gens := some ["g1", "g2"] }

/-- A `check_skipna=True` descriptor with non-empty `params`. -/
def tcSkipnaP : TestCase :=
  { name := "nsum", size := [10], params := "axis=0", check_skipna := true }

/-- A `check_skipna=False` descriptor. -/
def tcNoSkipna : TestCase := { name := "nsum", size := [10] }

/-- A descriptor with explicit `usecase_params` and a single explicit
call-expression string. -/
def tcUP : TestCase :=
  { name := "add", size := [10], usecase_params := some "data, other",
    call_expr := .single "data + other" }

end HpatGen
namespace HpatGen

/-- C4: for a descriptor with `check_skipna = true`, `skipna_cases` yields
exactly two descriptors, first a copy with `skipna=True` appended to
`params` (comma-separated when `params` is non-empty) and then a copy with
`skipna=False` appended, each differing from the original only in `params`
(the record-update form of the statement); a descriptor with
`check_skipna = false` passes through unchanged.  The source descriptor is
never mutated: `_replace` builds copies, modelled by immutable record
updates. -/
theorem skipna_cases_expansion (d : TestCase) :
    (d.check_skipna = true →
      skipna_cases [d] =
        [{ d with params := (if d.params ≠ "" then d.params ++ ", " else "") ++ "skipna=True" },
         { d with params := (if d.params ≠ "" then d.params ++ ", " else "") ++ "skipna=False" }]) ∧
    (d.check_skipna = false → skipna_cases [d] = [d]) := by
  constructor
  · intro h
    by_cases hp : d.params = "" <;>
      simp [skipna_cases, skipnaVariant, h, hp]
  · intro h
    simp [skipna_cases, h]

/-- C4 witness: concrete expansions for a `check_skipna=True` descriptor
with non-empty params and for a `check_skipna=False` descriptor. -/
theorem skipna_cases_expansion_witness :
    skipna_cases [tcSkipnaP] =
      [{ tcSkipnaP with params := "axis=0, skipna=True" },
       { tcSkipnaP with params := "axis=0, skipna=False" }] ∧
    skipna_cases [tcNoSkipna] = [tcNoSkipna] :=
  ⟨(skipna_cases_expansion tcSkipnaP).1 rfl, (skipna_cases_expansion tcNoSkipna).2 rfl⟩

end HpatGen
namespace HpatGen

/-- C5: for every descriptor satisfying the data model's `data_num ≥ 1`
invariant, the partition width used by both `gen_usecase_params` and
`gen_params_wo_data` equals the spec's width — `len(data_gens)` when
`data_gens` is present (taking precedence over `data_num`), else
`max(data_num − 1, 0)` — and the first `width` comma-separated tokens of
`params` are the extra data tokens while the rest are the literal tokens. -/
theorem partition_width_spec (tc : TestCase) (h : 1 ≤ tc.data_num) :
    gen_usecase_params tc =
      joinWith ", " ("data" :: (pySplit tc.params ", ").take (specWidth tc).toNat) ∧
    gen_params_wo_data tc =
      joinWith ", " ((pySplit tc.params ", ").drop (specWidth tc).toNat) ∧
    (tc.data_gens = Option.none → specWidth tc = tc.data_num - 1) ∧
    (∀ gens, tc.data_gens = some gens → specWidth tc = (gens.length : Int)) := by
  have hw : ∀ n : Nat, pySliceIdx n (extraDataNum tc) = (specWidth tc).toNat := by
    intro n
    cases hg : tc.data_gens with
    | none =>
      have h0 : (0 : Int) ≤ tc.data_num - 1 := by omega
      simp [pySliceIdx, extraDataNum, specWidth, hg, h0, max_eq_left h0]
    | some gens =>
      simp [pySliceIdx, extraDataNum, specWidth, hg]
  refine ⟨?_, ?_, ?_, ?_⟩
  · simp [gen_usecase_params, pyTake, hw]
  · simp [gen_params_wo_data, pyDrop, hw]
  · intro hg
    have h0 : (0 : Int) ≤ tc.data_num - 1 := by omega
    simp [specWidth, hg, max_eq_left h0]
  · intro gens hg
    simp [specWidth, hg]

/-- C5 witness: `params="x, y, z"` with `data_num=3` partitions into extra
`x, y` and literal `z`; with `data_num=1` into no extra tokens and all
three literal; `data_gens` of length 2 overrides `data_num=5` and gives an
extra part of length 2. -/
theorem partition_width_spec_witness :
    gen_usecase_params tcXYZ3 = "data, x, y" ∧ gen_params_wo_data tcXYZ3 = "z" ∧
    gen_usecase_params tcXYZ1 = "data" ∧ gen_params_wo_data tcXYZ1 = "x, y, z" ∧
    gen_usecase_params tcXYZg = "data, x, y" ∧
    ((pySplit tcXYZg.params ", ").take (specWidth tcXYZg).toNat).length = 2 :=
  ⟨((partition_width_spec tcXYZ3 (by decide)).1).trans (by decide),
   ((partition_width_spec tcXYZ3 (by decide)).2.1).trans (by decide),
   ((partition_width_spec tcXYZ1 (by decide)).1).trans (by decide),
   ((partition_width_spec tcXYZ1 (by decide)).2.1).trans (by decide),
   ((partition_width_spec tcXYZg (by decide)).1).trans (by decide),
   by decide⟩

/-- C8: for every descriptor with `call_expr` absent the default call
expression is the field-access join of `data`, the prefix (only when
non-empty) and `name(params)`; in particular `sum` with empty params and
prefix gives `data.sum()`, and `contains` with params `'a'` and prefix
`str` gives `data.str.contains('a')`. -/
theorem gen_call_expr_spec (tc : TestCase) (pfx : String) :
    gen_call_expr tc pfx =
      "data." ++ (if pfx = "" then "" else pfx ++ ".") ++
        (tc.name ++ "(" ++ tc.params ++ ")") ∧
    gen_call_expr { name := "sum", size := [] } "" = "data.sum()" ∧
    gen_call_expr { name := "contains", size := [], params := "\x27a\x27" } "str" =
      "data.str.contains(\x27a\x27)" := by
  refine ⟨?_, rfl, rfl⟩
  by_cases hp : pfx = ""
  · simp [gen_call_expr, hp, joinWith]
  · simp [gen_call_expr, hp, joinWith, String.append_assoc]

end HpatGen
namespace HpatGen

/-- C3 (code behaviour at the failing input): registering a table whose
two descriptors synthesize the same identifier does NOT raise — the second
`setattr` silently replaces the first method, and registration returns a
class with a single attached method named `test_series_sum`. -/
theorem generate_test_cases_silent_overwrite :
    (generate_test_cases [tcSum, tcSum] [] "series" "").map (fun cls => cls.map Prod.fst) =
      .ok ["test_series_sum"] := rfl

/-- C9: for every descriptor with `skip = true`, the generated test method
denotes the skipped outcome — invoking it reports skipped and performs no
harness call, hence never invokes the synthesized probe or the external
entry point — and registration attaches exactly that skipped method under
the synthesized identifier. -/
theorem gen_test_skip (tc : TestCase) (typ pfx : String) (hs : tc.skip = true) :
    (∀ m, gen_test tc pfx = .ok m → m = .skipped) ∧
    (tc.check_skipna = false → ∀ m, gen_test tc pfx = .ok m →
      ∀ cls, generate_test_cases [tc] cls typ pfx =
        .ok (pySetattr cls (gen_test_name tc typ pfx) TestMethod.skipped)) := by
  have h1 : ∀ m, gen_test tc pfx = .ok m → m = .skipped := by
    intro m hm
    unfold gen_test at hm
    cases hu : gen_usecase tc pfx with
    | error e => rw [hu] at hm; cases hm
    | ok u =>
      rw [hu] at hm
      simp only [hs, if_true, skip_numba_jit] at hm
      cases hm
      rfl
  refine ⟨h1, ?_⟩
  intro hck m hm cls
  unfold generate_test_cases
  have hsk : skipna_cases [tc] = [tc] := by simp [skipna_cases, hck]
  rw [hsk]
  unfold registerLoop
  rw [hm, h1 m hm]
  rfl

/-- C9 witness: the concrete `skip=True` descriptor registers a method
that reports skipped and records no harness call. -/
theorem gen_test_skip_witness :
    gen_test tcSkip "" = .ok TestMethod.skipped ∧
    generate_test_cases [tcSkip] [] "series" "" =
      .ok [(gen_test_name tcSkip "series" "", TestMethod.skipped)] := by
  have h := gen_test_skip tcSkip "series" "" rfl
  have hg : gen_test tcSkip "" = .ok TestMethod.skipped := rfl
  exact ⟨hg, (h.2 rfl TestMethod.skipped hg []).trans rfl⟩

/-- C10 counterexample: for the descriptor with empty `params`, no
`usecase_params`, no `data_gens` and `data_num = 2`, the derived signature
text is indeed `"data, "` (the empty token comes from splitting the empty
string), but synthesizing a probe from it does NOT fail: a trailing comma
is valid Python parameter-list syntax, so `gen_usecase` succeeds and
returns a probe whose only parameter is `data`. -/
theorem trailing_comma_signature_compiles :
    gen_usecase_params tcC10 = "data, " ∧
    (create_func (gen_usecase_params tcC10) (gen_call_expr tcC10 "")).isOk = true ∧
    gen_usecase tcC10 "" = .ok (.single probeSum) :=
  ⟨rfl, rfl, rfl⟩

/-- C10 (amended): with empty `params`, no `usecase_params`, no
`data_gens` and `data_num ≥ 2`, the derived signature is the text
`"data, "` (a `data` token followed by an empty token); synthesis from it
succeeds for every syntactically valid expression — the trailing comma is
legal parameter syntax — yielding a probe with the single parameter
`data`, and the arity mismatch with the `data_num` generated arguments
surfaces only at call time as a TypeError. -/
theorem trailing_comma_signature (tc : TestCase) (h1 : tc.params = "")
    (_h2 : tc.usecase_params = Option.none) (h3 : tc.data_gens = Option.none)
    (h4 : 2 ≤ tc.data_num) :
    gen_usecase_params tc = "data, " ∧
    ∀ ce e, parseExpr ce = some e →
      create_func (gen_usecase_params tc) ce = .ok { params := ["data"], body := e } ∧
      ∀ (ts : ℕ → ℚ) (args : List Value), args.length = 2 →
        Probe.call { params := ["data"], body := e } ts args = .error .typeError := by
  have hd : extraDataNum tc = tc.data_num - 1 := by simp [extraDataNum, h3]
  have e1 : gen_usecase_params tc = "data, " := by
    unfold gen_usecase_params
    rw [h1, hd]
    have hsplit : pySplit "" ", " = [""] := rfl
    rw [hsplit]
    have htake : pyTake [""] (tc.data_num - 1) = [""] := by
      unfold pyTake pySliceIdx
      have h0 : (0 : Int) ≤ tc.data_num - 1 := by omega
      rw [if_pos h0]
      have hk : 1 ≤ (tc.data_num - 1).toNat := by omega
      cases hn : (tc.data_num - 1).toNat with
      | zero => omega
      | succ k => simp
    rw [htake]
    rfl
  refine ⟨e1, ?_⟩
  intro ce e hce
  rw [e1]
  constructor
  · unfold create_func
    rw [hce]
    rfl
  · intro ts args hlen
    unfold Probe.call
    rw [hlen]
    rfl

/-- C10 witness for the amended statement: the concrete descriptor, the
default expression `data.sum()`, and a two-argument call that fails with a
TypeError. -/
theorem trailing_comma_signature_witness :
    gen_usecase_params tcC10 = "data, " ∧
    create_func (gen_usecase_params tcC10) "data.sum()" =
      .ok { params := ["data"], body := .call (.attr (.var "data") "sum") [] } ∧
    Probe.call { params := ["data"], body := .call (.attr (.var "data") "sum") [] }
      (fun _ => (0 : ℚ)) [.int 1, .int 2] = .error .typeError := by
  have h := trailing_comma_signature tcC10 rfl rfl rfl (by decide)
  have h2 := h.2 "data.sum()" (.call (.attr (.var "data") "sum") []) rfl
  exact ⟨h.1, h2.1, h2.2 (fun _ => (0 : ℚ)) [.int 1, .int 2] rfl⟩

end HpatGen
namespace HpatGen

/-- A successfully synthesized probe's parameter list is the parse of the
signature text handed to `create_func`. -/
theorem create_func_ok_params (s t : String) (p : Probe)
    (h : create_func s t = .ok p) : parseParams s = some p.params := by
  unfold create_func at h
  cases hp : parseParams s with
  | none =>
    rw [hp] at h
    cases he : parseExpr t <;> rw [he] at h <;> cases h
  | some ps =>
    rw [hp] at h
    cases he : parseExpr t with
    | none => rw [he] at h; cases h
    | some e =>
      rw [he] at h
      cases h
      rfl

/-- The record list built for a `CallExpression` list has one record per
entry, in input order, carrying each entry's `type_` and `jitted`, and
every probe's parameter list is the parse of the shared signature text. -/
theorem buildRecords_spec (sig : String) :
    ∀ (l : List CallExpression) (rs : List ProbeRecord),
      buildRecords sig l = .ok rs →
      rs.length = l.length ∧
      rs.map ProbeRecord.type_ = l.map CallExpression.type_ ∧
      rs.map ProbeRecord.jitted = l.map CallExpression.jitted ∧
      ∀ r ∈ rs, parseParams sig = some r.func.params := by
  intro l
  induction l with
  | nil =>
    intro rs h
    cases h
    simp
  | cons ce rest ih =>
    intro rs h
    unfold buildRecords at h
    cases hc : create_func sig ce.code with
    | error e => rw [hc] at h; cases h
    | ok f =>
      rw [hc] at h
      cases hb : buildRecords sig rest with
      | error e => rw [hb] at h; cases h
      | ok rs2 =>
        rw [hb] at h
        cases h
        obtain ⟨hlen, htype, hjit, hparams⟩ := ih rs2 hb
        refine ⟨by simp [hlen], by simp [htype], by simp [hjit], ?_⟩
        intro r hr
        rcases List.mem_cons.mp hr with hcur | hmem
        · rw [hcur]
          exact create_func_ok_params sig ce.code f hc
        · exact hparams r hmem

/-- C2 counterexample: for a descriptor whose `call_expr` is absent,
`gen_usecase` returns a bare callable — `Usecase.single`, carrying no
category tag and no compiled flag — not a one-element sequence of probe
records tagged `default`. -/
theorem gen_usecase_single_is_bare :
    gen_usecase tcSum "" = .ok (.single probeSum) ∧
    isRecordSeq (gen_usecase tcSum "") = false :=
  ⟨rfl, rfl⟩

/-- C2 (amended): when `call_expr` is absent or a single string and
synthesis succeeds, `gen_usecase` returns exactly one bare callable (not a
tagged record); when `call_expr` is a sequence of `k` CallExpressions and
synthesis succeeds, it returns exactly `k` probe records in input order,
each carrying that entry's category and compiled flag, and all built from
the same signature text. -/
theorem gen_usecase_shape (tc : TestCase) (pfx : String) :
    ((tc.call_expr = .absent ∨ ∃ ce, tc.call_expr = .single ce) →
      ∀ u, gen_usecase tc pfx = .ok u → ∃ f, u = .single f) ∧
    (∀ l, tc.call_expr = .exprs l → ∀ u, gen_usecase tc pfx = .ok u →
      ∃ rs, u = .records rs ∧ rs.length = l.length ∧
        rs.map ProbeRecord.type_ = l.map CallExpression.type_ ∧
        rs.map ProbeRecord.jitted = l.map CallExpression.jitted ∧
        ∀ r ∈ rs, parseParams (pyFormatOptStr tc.usecase_params) = some r.func.params) := by
  constructor
  · rintro (hce | ⟨ce, hce⟩) u hu
    · simp only [gen_usecase, hce] at hu
      cases hc : create_func ((tc.usecase_params).getD (gen_usecase_params tc))
          (gen_call_expr tc pfx) with
      | error e => rw [hc] at hu; cases hu
      | ok f => rw [hc] at hu; cases hu; exact ⟨f, rfl⟩
    · simp only [gen_usecase, hce] at hu
      cases hc : create_func (pyFormatOptStr tc.usecase_params) ce with
      | error e => rw [hc] at hu; cases hu
      | ok f => rw [hc] at hu; cases hu; exact ⟨f, rfl⟩
  · intro l hce u hu
    simp only [gen_usecase, hce] at hu
    cases hb : buildRecords (pyFormatOptStr tc.usecase_params) l with
    | error e => rw [hb] at hu; cases hu
    | ok rs =>
      rw [hb] at hu
      cases hu
      exact ⟨rs, rfl, buildRecords_spec _ l rs hb⟩

/-- C2 witness: the three-channel descriptor yields exactly three records
with the declared distinct categories and the shared signature, and the
default-channel descriptor yields a single bare callable. -/
theorem gen_usecase_shape_witness :
    (∃ f, Usecase.single probeSum = Usecase.single f) ∧
    (∃ rs, Usecase.records
        [{ func := probeSum, type_ := "Python", jitted := false },
         { func := probeSum, type_ := "Numba", jitted := true },
         { func := probeSum, type_ := "SDC", jitted := true }] = .records rs ∧
      rs.length = 3 ∧
      rs.map ProbeRecord.type_ = ["Python", "Numba", "SDC"] ∧
      rs.map ProbeRecord.jitted = [false, true, true] ∧
      ∀ r ∈ rs, parseParams "data" = some r.func.params) :=
  ⟨(gen_usecase_shape tcSum "").1 (Or.inl rfl) (Usecase.single probeSum) rfl,
   (gen_usecase_shape tcMulti "").2 _ rfl _ rfl⟩

end HpatGen
namespace HpatGen

/-- C7 counterexample: for a descriptor with an explicit single-string
`call_expr` and no `usecase_params`, the code does not fall back to the
derived `data`-led signature — Python string formatting turns the `None`
into the literal text `"None"`, which is not a valid parameter list, so
synthesis fails, even though the derived signature `"data"` would have
compiled. -/
theorem explicit_call_expr_uses_none_text :
    pyFormatOptStr tcC7.usecase_params = "None" ∧
    gen_usecase_params tcC7 = "data" ∧
    gen_usecase tcC7 "" = .error .compileError ∧
    (create_func (gen_usecase_params tcC7) "data.sum()").isOk = true :=
  ⟨rfl, rfl, rfl, rfl⟩

/-- C7 (amended): the signature text used for synthesis is the explicit
`usecase_params` whenever it is provided (any `call_expr` form); when
`usecase_params` is absent, the derived `data`-led signature is used only
when `call_expr` is also absent — when `call_expr` is given explicitly
(single string, or a non-empty CallExpression list), the literal text
`"None"` is passed instead and synthesis fails at construction time. -/
theorem gen_usecase_signature_derivation (tc : TestCase) (pfx : String) :
    (∀ s, tc.usecase_params = some s →
      ∀ u, gen_usecase tc pfx = .ok u →
        ∀ p ∈ probesOf u, parseParams s = some p.params) ∧
    (tc.usecase_params = Option.none → tc.call_expr = .absent →
      ∀ u, gen_usecase tc pfx = .ok u →
        ∀ p ∈ probesOf u, parseParams (gen_usecase_params tc) = some p.params) ∧
    (tc.usecase_params = Option.none →
      (∀ ce, tc.call_expr = .single ce → gen_usecase tc pfx = .error .compileError) ∧
      (∀ l, tc.call_expr = .exprs l → l ≠ [] →
        gen_usecase tc pfx = .error .compileError)) := by
  have hNone : parseParams "None" = Option.none := rfl
  refine ⟨?_, ?_, ?_⟩
  · intro s hs u hu p hp
    cases hce : tc.call_expr with
    | absent =>
      simp only [gen_usecase, hce, hs, Option.getD_some] at hu
      cases hc : create_func s (gen_call_expr tc pfx) with
      | error e => rw [hc] at hu; cases hu
      | ok f =>
        rw [hc] at hu
        cases hu
        simp only [probesOf, List.mem_singleton] at hp
        rw [hp]
        exact create_func_ok_params _ _ f hc
    | single ce =>
      simp only [gen_usecase, hce] at hu
      cases hc : create_func (pyFormatOptStr tc.usecase_params) ce with
      | error e => rw [hc] at hu; cases hu
      | ok f =>
        rw [hc] at hu
        cases hu
        simp only [probesOf, List.mem_singleton] at hp
        rw [hp]
        have := create_func_ok_params _ _ f hc
        rwa [hs] at this
    | exprs l =>
      simp only [gen_usecase, hce] at hu
      cases hb : buildRecords (pyFormatOptStr tc.usecase_params) l with
      | error e => rw [hb] at hu; cases hu
      | ok rs =>
        rw [hb] at hu
        cases hu
        simp only [probesOf, List.mem_map] at hp
        obtain ⟨r, hr, hrp⟩ := hp
        have := (buildRecords_spec _ l rs hb).2.2.2 r hr
        rw [hs] at this
        rw [← hrp]
        exact this
  · intro hup hce u hu p hp
    simp only [gen_usecase, hce, hup, Option.getD_none] at hu
    cases hc : create_func (gen_usecase_params tc) (gen_call_expr tc pfx) with
    | error e => rw [hc] at hu; cases hu
    | ok f =>
      rw [hc] at hu
      cases hu
      simp only [probesOf, List.mem_singleton] at hp
      rw [hp]
      exact create_func_ok_params _ _ f hc
  · intro hup
    constructor
    · intro ce hce
      simp only [gen_usecase, hce, hup]
      have : create_func "None" ce = .error .compileError := by
        unfold create_func
        rw [hNone]
      rw [pyFormatOptStr, hup] at *
      simp [pyFormatOptStr, this]
    · intro l hce hl
      simp only [gen_usecase, hce, hup]
      cases l with
      | nil => exact absurd rfl hl
      | cons ce rest =>
        have hcf : create_func (pyFormatOptStr (Option.none : Option String)) ce.code =
            .error .compileError := by
          unfold create_func
          rw [show parseParams (pyFormatOptStr (Option.none : Option String)) =
            (Option.none : Option (List String)) from rfl]
        simp [buildRecords, hcf]

end HpatGen
namespace HpatGen

/-- C7 witness: the explicit signature is used with an explicit
call expression; the derived signature is used when both are absent; and
an explicit call expression with absent `usecase_params` fails at
construction time. -/
theorem gen_usecase_signature_derivation_witness :
    parseParams "data, other" = some ["data", "other"] ∧
    parseParams (gen_usecase_params tcSum) = some ["data"] ∧
    gen_usecase tcC7 "" = .error .compileError :=
  ⟨(gen_usecase_signature_derivation tcUP "").1 "data, other" rfl
      (Usecase.single probeAdd) rfl probeAdd (List.mem_singleton.mpr rfl),
   (gen_usecase_signature_derivation tcSum "").2.1 rfl rfl
      (Usecase.single probeSum) rfl probeSum (List.mem_singleton.mpr rfl),
   ((gen_usecase_signature_derivation tcC7 "").2.2 rfl).1 "data.sum()" rfl⟩

/-- C6: every successfully synthesized probe that returns does so with a
non-negative duration whenever the two clock readings are ordered (the
spec's monotonic-timestamp assumption); and the round-trip probe from
signature `data, other` and expression `data + other`, invoked with
`(5, 3)`, returns the pair (elapsed, 8). -/
theorem probe_timing_roundtrip :
    (∀ (s t : String) (p : Probe), create_func s t = .ok p →
      ∀ (ts : ℕ → ℚ) (args : List Value) (d : ℚ) (v : Value),
        ts 0 ≤ ts 1 → p.call ts args = .ok (d, v) → 0 ≤ d) ∧
    (∀ ts : ℕ → ℚ, ts 0 ≤ ts 1 →
      create_func "data, other" "data + other" = .ok probeAdd ∧
      probeAdd.call ts [.int 5, .int 3] = .ok (ts 1 - ts 0, .int 8) ∧
      0 ≤ ts 1 - ts 0) := by
  constructor
  · intro s t p _hp ts args d v hts hcall
    unfold Probe.call at hcall
    by_cases hlen : args.length = p.params.length
    · rw [if_pos hlen] at hcall
      cases he : evalExpr (p.params.zip args ++ moduleGlobals) p.body with
      | error e => rw [he] at hcall; cases hcall
      | ok res =>
        rw [he] at hcall
        cases hcall
        exact sub_nonneg.mpr hts
    · rw [if_neg hlen] at hcall; cases hcall
  · intro ts hts
    exact ⟨rfl, rfl, sub_nonneg.mpr hts⟩

/-- C6 witness: the round-trip at a concrete (constant, hence monotone)
clock. -/
theorem probe_timing_roundtrip_witness :
    create_func "data, other" "data + other" = .ok probeAdd ∧
    probeAdd.call (fun _ => (0 : ℚ)) [.int 5, .int 3] = .ok (0 - 0, .int 8) ∧
    (0 : ℚ) ≤ 0 - 0 := by
  have h := probe_timing_roundtrip.2 (fun _ => (0 : ℚ)) le_rfl
  exact ⟨h.1, h.2.1, h.2.2⟩

end HpatGen
namespace HpatGen

mutual

/-- Evaluating an expression that references a name the environment does
not bind always fails at call time. -/
theorem evalExpr_unbound (env : List (String × Value)) :
    (e : Expr) → hasUnbound env e = true → (evalExpr env e).isOk = false
  | .var x, h => by
    simp only [hasUnbound, Option.isNone_iff_eq_none] at h
    simp only [evalExpr, h]
    rfl
  | .num _, h => by simp [hasUnbound] at h
  | .strLit _, h => by simp [hasUnbound] at h
  | .add a b, h => by
    simp only [hasUnbound, Bool.or_eq_true] at h
    simp only [evalExpr]
    cases ha : evalExpr env a with
    | error e => rfl
    | ok va =>
      rcases h with h | h
      · have := evalExpr_unbound env a h
        rw [ha] at this
        exact Bool.noConfusion this
      · cases hb : evalExpr env b with
        | error e => rfl
        | ok vb =>
          have := evalExpr_unbound env b h
          rw [hb] at this
          exact Bool.noConfusion this
  | .attr e f, h => by
    simp only [hasUnbound] at h
    simp only [evalExpr]
    cases he : evalExpr env e with
    | error err => rfl
    | ok v =>
      have := evalExpr_unbound env e h
      rw [he] at this
      exact Bool.noConfusion this
  | .call f args, h => by
    simp only [hasUnbound, Bool.or_eq_true] at h
    simp only [evalExpr]
    cases hf : evalExpr env f with
    | error e => rfl
    | ok fv =>
      rcases h with h | h
      · have := evalExpr_unbound env f h
        rw [hf] at this
        exact Bool.noConfusion this
      · cases hargs : evalArgs env args with
        | error e => rfl
        | ok avs =>
          have := evalArgs_unbound env args h
          rw [hargs] at this
          exact Bool.noConfusion this

/-- Evaluating an argument list containing an unbound name always fails. -/
theorem evalArgs_unbound (env : List (String × Value)) :
    (l : List Expr) → hasUnboundList env l = true → (evalArgs env l).isOk = false
  | [], h => by simp [hasUnboundList] at h
  | e :: es, h => by
    simp only [hasUnboundList, Bool.or_eq_true] at h
    simp only [evalArgs]
    cases he : evalExpr env e with
    | error err => rfl
    | ok v =>
      rcases h with h | h
      · have := evalExpr_unbound env e h
        rw [he] at this
        exact Bool.noConfusion this
      · cases hes : evalArgs env es with
        | error err => rfl
        | ok vs =>
          have := evalArgs_unbound env es h
          rw [hes] at this
          exact Bool.noConfusion this

end

/-- C1 counterexample: the expression text `data + missing_name`
references the name `missing_name`, absent from the signature `data`, yet
probe synthesis succeeds at construction time — `exec` checks syntax only
— instead of failing as the claim requires. -/
theorem missing_name_not_rejected :
    create_func "data" "data + missing_name" = .ok probeMissing ∧
    exprVars probeMissing.body = ["data", "missing_name"] ∧
    probeMissing.params = ["data"] ∧
    "missing_name" ∉ probeMissing.params :=
  ⟨rfl, rfl, rfl, by simp [probeMissing]⟩

/-- C1 (amended): syntactically invalid parameter or expression text does
fail at `create_func` construction time; but an expression referencing a
name absent from the signature is not rejected there — when the name is
also absent from the module globals, the synthesized probe fails only at
call time. -/
theorem create_func_failure_semantics :
    (∀ s t, (parseParams s = Option.none ∨ parseExpr t = Option.none) →
      create_func s t = .error .compileError) ∧
    (∀ s t p, create_func s t = .ok p →
      ∀ (ts : ℕ → ℚ) (args : List Value),
        hasUnbound (p.params.zip args ++ moduleGlobals) p.body = true →
        (p.call ts args).isOk = false) := by
  constructor
  · intro s t h
    unfold create_func
    rcases h with h | h
    · rw [h]
    · rw [h]
      cases parseParams s <;> rfl
  · intro s t p _hp ts args hub
    unfold Probe.call
    by_cases hlen : args.length = p.params.length
    · rw [if_pos hlen]
      have hev := evalExpr_unbound (p.params.zip args ++ moduleGlobals) p.body hub
      cases he : evalExpr (p.params.zip args ++ moduleGlobals) p.body with
      | error e => rfl
      | ok res =>
        rw [he] at hev
        exact Bool.noConfusion hev
    · rw [if_neg hlen]; rfl

/-- C1 witness for the amended statement: malformed expression text fails
at construction; the probe whose body references the unbound name
`missing_name` was constructed successfully but fails when called. -/
theorem create_func_failure_semantics_witness :
    create_func "data" "data +" = .error .compileError ∧
    (Probe.call probeMissing (fun _ => (0 : ℚ)) [.int 1]).isOk = false :=
  ⟨create_func_failure_semantics.1 "data" "data +" (Or.inr rfl),
   create_func_failure_semantics.2 "data" "data + missing_name" probeMissing rfl
     (fun _ => (0 : ℚ)) [.int 1] rfl⟩

end HpatGen
